import Mathlib

/-!
Verification of the voxel-difference pipeline of `ep-subdivide-mnc-methods`.

The embedding follows the installed program (`setup.py` entry point
`subdivide.__main__:main`), i.e. `subdivide/voldiff.py` and
`subdivide/__main__.py`.  Volumes (numpy 3-d float arrays) are embedded as
functions `ℕ → ℕ → ℕ → ℚ` together with an explicit shape `(nx, ny, nz)`;
float samples and the float literal `0.5` become exact rationals, and the
strict float comparisons of the source become the corresponding strict
rational comparisons.  File names are embedded as `List Char`.
-/

/-- The threshold `0.5` used by `_count_3d_diff` in `subdivide/voldiff.py`. -/
def half : ℚ := mkRat 1 2

/-- Row-major enumeration of the index triples visited by the triple
`for x / for y / for z` loop of `_count_3d_diff` over a volume of shape
`(nx, ny, nz)`. -/
def allIdx (nx ny nz : ℕ) : List (ℕ × ℕ × ℕ) :=
  (List.range nx).flatMap fun x =>
    (List.range ny).flatMap fun y =>
      (List.range nz).map fun z => (x, y, z)

/-- Sample of a volume at an index triple. -/
def volAt (v : ℕ → ℕ → ℕ → ℚ) (p : ℕ × ℕ × ℕ) : ℚ :=
  v p.1 p.2.1 p.2.2

/-- Position counted as an addition by `_count_3d_diff`:
`a[x,y,z] < 0.5 < b[x,y,z]` (reference `a` below threshold, candidate `b`
above it). -/
def isAddition (a b : ℕ → ℕ → ℕ → ℚ) (p : ℕ × ℕ × ℕ) : Bool :=
  decide (volAt a p < half ∧ half < volAt b p)

/-- Position counted as a deletion by `_count_3d_diff`:
`a[x,y,z] > 0.5 > b[x,y,z]`. -/
def isDeletion (a b : ℕ → ℕ → ℕ → ℚ) (p : ℕ × ℕ × ℕ) : Bool :=
  decide (half < volAt a p ∧ volAt b p < half)

/-- One iteration of the loop body of `_count_3d_diff`
(`subdivide/voldiff.py`, lines 28-41).  The accumulator is the pair
`(additions, deletions)`; the `if`/`elif` order of the source is kept. -/
def diffStep (a b : ℕ → ℕ → ℕ → ℚ) (acc : ℕ × ℕ) (p : ℕ × ℕ × ℕ) : ℕ × ℕ :=
  if half < volAt a p ∧ volAt b p < half then (acc.1, acc.2 + 1)
  else if volAt a p < half ∧ half < volAt b p then (acc.1 + 1, acc.2)
  else acc

/-- Embedding of `_count_3d_diff(a, b)` of `subdivide/voldiff.py` for two volumes of the
same shape `(nx, ny, nz)`: the triple nested loop is the left fold of its
body over the row-major enumeration of the index space.  Returns
`(additions, deletions)`.  (The `reshape` branch of the source only fires
when the raw shapes differ, which the claims exclude.) -/
def count_3d_diff (nx ny nz : ℕ) (a b : ℕ → ℕ → ℕ → ℚ) : ℕ × ℕ :=
  (allIdx nx ny nz).foldl (diffStep a b) (0, 0)

theorem diffStep_fold (a b : ℕ → ℕ → ℕ → ℚ) (l : List (ℕ × ℕ × ℕ)) :
    ∀ acc : ℕ × ℕ, l.foldl (diffStep a b) acc
      = (acc.1 + l.countP (isAddition a b), acc.2 + l.countP (isDeletion a b)) := by
  induction l with
  | nil => intro acc; simp
  | cons p l ih =>
    intro acc
    rw [List.foldl_cons, ih]
    by_cases hdel : half < volAt a p ∧ volAt b p < half
    · have hadd : ¬(volAt a p < half ∧ half < volAt b p) := by
        rintro ⟨h1, _⟩; exact absurd (lt_trans hdel.1 h1) (lt_irrefl _)
      simp [diffStep, hdel, isAddition, isDeletion, hadd, List.countP_cons]
      omega
    · by_cases hadd : volAt a p < half ∧ half < volAt b p
      · simp [diffStep, hdel, hadd, isAddition, isDeletion, List.countP_cons]
        omega
      · simp [diffStep, hdel, hadd, isAddition, isDeletion, List.countP_cons]

theorem count_3d_diff_eq_countP (nx ny nz : ℕ) (a b : ℕ → ℕ → ℕ → ℚ) :
    count_3d_diff nx ny nz a b
      = ((allIdx nx ny nz).countP (isAddition a b),
         (allIdx nx ny nz).countP (isDeletion a b)) := by
  rw [count_3d_diff, diffStep_fold]
  simp

/-- C1: `_count_3d_diff` returns `additions` equal to the number of positions
where the reference value is strictly below `0.5` and the candidate value is
strictly above `0.5`, and `deletions` equal to the number of positions where
the reference value is strictly above `0.5` and the candidate value is
strictly below `0.5`; every position satisfying neither strict condition is
counted in neither component. -/
theorem count_3d_diff_counts (nx ny nz : ℕ) (a b : ℕ → ℕ → ℕ → ℚ) :
    count_3d_diff nx ny nz a b
      = ((allIdx nx ny nz).countP (isAddition a b),
         (allIdx nx ny nz).countP (isDeletion a b)) :=
  count_3d_diff_eq_countP nx ny nz a b

/-- Removal of the first occurrence of an index triple from a list
(used to state that a position contributes to neither count). -/
def removeFirst (l : List (ℕ × ℕ × ℕ)) (p : ℕ × ℕ × ℕ) : List (ℕ × ℕ × ℕ) :=
  match l with
  | [] => []
  | x :: xs => if x = p then xs else x :: removeFirst xs p

theorem perm_removeFirst (p : ℕ × ℕ × ℕ) :
    ∀ l : List (ℕ × ℕ × ℕ), p ∈ l → l.Perm (p :: removeFirst l p) := by
  intro l
  induction l with
  | nil => intro h; cases h
  | cons x xs ih =>
    intro h
    rcases eq_or_ne x p with rfl | hx
    · simp [removeFirst]
    · have hmem : p ∈ xs := by
        rcases List.mem_cons.mp h with h1 | h1
        · exact absurd h1.symm hx
        · exact h1
      have h1 : (x :: xs).Perm (x :: (p :: removeFirst xs p)) :=
        (ih hmem).cons x
      have h2 : (x :: p :: removeFirst xs p).Perm (p :: x :: removeFirst xs p) :=
        List.Perm.swap p x (removeFirst xs p)
      have h3 : removeFirst (x :: xs) p = x :: removeFirst xs p := by
        simp [removeFirst, hx]
      rw [h3]
      exact h1.trans h2

/-- C10: a position where either volume holds exactly `0.5` is counted in
neither component: both counts equal the counts taken over the index
enumeration with that position removed (the threshold comparisons of
`_count_3d_diff` are strict on both sides). -/
theorem count_3d_diff_half_neutral (nx ny nz : ℕ) (a b : ℕ → ℕ → ℕ → ℚ)
    (p : ℕ × ℕ × ℕ) (hp : p ∈ allIdx nx ny nz)
    (hhalf : volAt a p = half ∨ volAt b p = half) :
    count_3d_diff nx ny nz a b
      = ((removeFirst (allIdx nx ny nz) p).countP (isAddition a b),
         (removeFirst (allIdx nx ny nz) p).countP (isDeletion a b)) := by
  have hperm := perm_removeFirst p (allIdx nx ny nz) hp
  have hadd : isAddition a b p = false := by
    rcases hhalf with h | h <;>
      simp [isAddition, h, le_refl, not_lt.mpr, le_of_eq]
  have hdel : isDeletion a b p = false := by
    rcases hhalf with h | h <;>
      simp [isDeletion, h, le_refl, not_lt.mpr, le_of_eq]
  rw [count_3d_diff_eq_countP, hperm.countP_eq (isAddition a b),
    hperm.countP_eq (isDeletion a b), List.countP_cons, List.countP_cons,
    hadd, hdel]
  simp

/-- C10 witness: concrete 1×1×1 volumes with the reference sample exactly
`0.5`; the hypotheses of `count_3d_diff_half_neutral` hold and the counts
agree with the counts over the emptied index list. -/
theorem count_3d_diff_half_neutral_witness :
    (0, 0, 0) ∈ allIdx 1 1 1 ∧
      (volAt (fun _ _ _ => half) (0, 0, 0) = half ∨
        volAt (fun _ _ _ => mkRat 1 1) (0, 0, 0) = half) ∧
      count_3d_diff 1 1 1 (fun _ _ _ => half) (fun _ _ _ => mkRat 1 1)
        = ((removeFirst (allIdx 1 1 1) (0, 0, 0)).countP
            (isAddition (fun _ _ _ => half) (fun _ _ _ => mkRat 1 1)),
           (removeFirst (allIdx 1 1 1) (0, 0, 0)).countP
            (isDeletion (fun _ _ _ => half) (fun _ _ _ => mkRat 1 1))) :=
  ⟨by decide, Or.inl rfl,
    count_3d_diff_half_neutral 1 1 1 _ _ (0, 0, 0) (by decide) (Or.inl rfl)⟩

/-- Vectorized diff stated from the words of the spec (§4.1): with
`diff = reference − candidate`, count additions where `diff < −0.5` and
deletions where `diff > +0.5`.  This definition follows the spec, not the
source; C9 compares it against the source scan `count_3d_diff`. -/
def vectorized_diff (nx ny nz : ℕ) (a b : ℕ → ℕ → ℕ → ℚ) : ℕ × ℕ :=
  ((allIdx nx ny nz).countP (fun p => decide (volAt a p - volAt b p < -half)),
   (allIdx nx ny nz).countP (fun p => decide (half < volAt a p - volAt b p)))

/-- C9: for strictly binary-mask volumes (every sample exactly `0` or `1`),
the vectorized subtract-and-threshold definition produces exactly the same
`(additions, deletions)` pair as the explicit triple-nested scan
`_count_3d_diff`. -/
theorem vectorized_diff_eq_count_3d_diff (nx ny nz : ℕ)
    (a b : ℕ → ℕ → ℕ → ℚ)
    (hbin : ∀ p ∈ allIdx nx ny nz,
      (volAt a p = 0 ∨ volAt a p = 1) ∧ (volAt b p = 0 ∨ volAt b p = 1)) :
    vectorized_diff nx ny nz a b = count_3d_diff nx ny nz a b := by
  rw [count_3d_diff_eq_countP, vectorized_diff, Prod.mk.injEq]
  have h2 : half = 1 / 2 := by
    rw [half, Rat.mkRat_eq_divInt, Rat.divInt_eq_div]; norm_num
  constructor
  · apply List.countP_congr
    intro p hp
    rcases (hbin p hp).1 with ha | ha <;> rcases (hbin p hp).2 with hb | hb <;>
      simp [isAddition, ha, hb, h2] <;> norm_num
  · apply List.countP_congr
    intro p hp
    rcases (hbin p hp).1 with ha | ha <;> rcases (hbin p hp).2 with hb | hb <;>
      simp [isDeletion, ha, hb, h2] <;> norm_num

/-- C9 witness: concrete strictly binary 2×1×1 volumes; the binary-mask
hypothesis holds and the vectorized counts agree with the scanned counts. -/
theorem vectorized_diff_eq_count_3d_diff_witness :
    (∀ p ∈ allIdx 2 1 1,
        (volAt (fun x _ _ => if x = 0 then (1 : ℚ) else 0) p = 0 ∨
          volAt (fun x _ _ => if x = 0 then (1 : ℚ) else 0) p = 1) ∧
        (volAt (fun _ _ _ => (1 : ℚ)) p = 0 ∨
          volAt (fun _ _ _ => (1 : ℚ)) p = 1)) ∧
      vectorized_diff 2 1 1 (fun x _ _ => if x = 0 then (1 : ℚ) else 0)
          (fun _ _ _ => (1 : ℚ))
        = count_3d_diff 2 1 1 (fun x _ _ => if x = 0 then (1 : ℚ) else 0)
          (fun _ _ _ => (1 : ℚ)) :=
  ⟨by decide,
    vectorized_diff_eq_count_3d_diff 2 1 1 _ _ (by decide)⟩

/-- Sum of all samples of a volume of shape `(nx, ny, nz)`; embeds
`other_data.sum()` of `subdivide/voldiff.py`. -/
def volSum (nx ny nz : ℕ) (v : ℕ → ℕ → ℕ → ℚ) : ℚ :=
  ((allIdx nx ny nz).map (volAt v)).sum

/-- Truncation of a rational toward zero; embeds the Python builtin `int()`
applied to a (float) sum in `total = int(other_data.sum())`. -/
def pyInt (q : ℚ) : ℤ :=
  q.num.tdiv q.den

/-- The tuple `MINCRESAMPLE_OPTIONS` of `subdivide/types.py` (not shipped under `src/`;
the same tuple appears verbatim as `__MINCRESAMPLE_OPTIONS` in the legacy
`subdivide.py` and in §6 of the spec).  Method names are embedded as
`List Char` like all other file-name material. -/
def MINCRESAMPLE_OPTIONS : List (List Char) :=
  ["trilinear".data, "tricubic".data, "nearest_neighbour".data]

/-- Splitting of a file name at every dot; embeds `p.name.split('.')` of
`_method_of` (Python `str.split` with a one-character separator). -/
def splitOnDot : List Char → List (List Char)
  | [] => [[]]
  | c :: cs =>
    match splitOnDot cs with
    | [] => [[c]]
    | h :: t => if c = '.' then [] :: h :: t else (c :: h) :: t

/-- Embedding of `_method_of(p)` of `subdivide/voldiff.py`: split the file name at dots,
require at least six segments, take the second-to-last segment and require
it to be a registered method; `Except.error` embeds the raised
`ValueError`. -/
def method_of (name : List Char) : Except String (List Char) :=
  let parts := splitOnDot name
  if parts.length < 6 then
    .error "ValueError: naming convention violated"
  else
    let method := parts.getD (parts.length - 2) []
    if method ∈ MINCRESAMPLE_OPTIONS then .ok method
    else .error "ValueError: method is not a MINCRESAMPLE_OPTION"

/-- The `VolDiff` record of `subdivide/voldiff.py` (a `TypedDict`). -/
structure VolDiff where
  additions : ℕ
  deletions : ℕ
  total : ℤ
  change : ℤ
  count_changes : ℕ
  percent_change : ℚ
  method : List Char
  path : List Char
deriving DecidableEq

/-- Embedding of `voldiff_between(kron_path, other_path)` of `subdivide/voldiff.py`, after
the two volumes have been loaded (volume I/O stays at the boundary): count
the 3-d diff of reference `kron` against candidate `other`, set
`total = int(other_data.sum())`, recover the method from the candidate file
name (`ValueError` on a malformed name), and build the record.  Python
evaluates `percent_change = change / total` on `int`s while constructing the
record, which raises `ZeroDivisionError` exactly when `total == 0`; the
embedding returns that error in place of the crash. -/
def voldiff_between (nx ny nz : ℕ) (kron other : ℕ → ℕ → ℕ → ℚ)
    (other_path : List Char) : Except String VolDiff :=
  let ad := count_3d_diff nx ny nz kron other
  let total : ℤ := pyInt (volSum nx ny nz other)
  match method_of other_path with
  | .error e => .error e
  | .ok inter_option =>
    let change : ℤ := (ad.1 : ℤ) - (ad.2 : ℤ)
    if total = 0 then .error "ZeroDivisionError: division by zero"
    else
      .ok { additions := ad.1, deletions := ad.2, total := total,
            change := change, count_changes := ad.1 + ad.2,
            percent_change := (change : ℚ) / (total : ℚ),
            method := inter_option, path := other_path }

theorem sum_binary_natCast : ∀ l : List ℚ, (∀ x ∈ l, x = 0 ∨ x = 1) →
    ∃ n : ℕ, l.sum = (n : ℚ) := by
  intro l
  induction l with
  | nil => intro _; exact ⟨0, by simp⟩
  | cons x xs ih =>
    intro h
    obtain ⟨n, hn⟩ := ih fun y hy => h y (List.mem_cons_of_mem x hy)
    rcases h x (List.mem_cons_self x xs) with hx | hx
    · exact ⟨n, by simp [hx, hn]⟩
    · exact ⟨n + 1, by rw [List.sum_cons, hx, hn]; push_cast; ring⟩

theorem pyInt_natCast (n : ℕ) : pyInt ((n : ℕ) : ℚ) = (n : ℤ) := by
  simp [pyInt]

/-- C2: the `total` field of every successfully constructed `VolDiff` equals
the sum of all values of the candidate volume `other` (for a binary-mask
candidate, whose float sum is an exact integer so that the `int()` cast is
the identity).  The reference volume `kron` is arbitrary and does not occur
in the conclusion: `total` is taken from the candidate, not the
reference. -/
theorem voldiff_between_total_of_candidate (nx ny nz : ℕ)
    (kron other : ℕ → ℕ → ℕ → ℚ) (name : List Char) (d : VolDiff)
    (hbin : ∀ p ∈ allIdx nx ny nz, volAt other p = 0 ∨ volAt other p = 1)
    (hd : voldiff_between nx ny nz kron other name = .ok d) :
    (d.total : ℚ) = volSum nx ny nz other := by
  obtain ⟨n, hn⟩ : ∃ n : ℕ, volSum nx ny nz other = (n : ℚ) := by
    obtain ⟨n, hn⟩ := sum_binary_natCast ((allIdx nx ny nz).map (volAt other))
      (by intro x hx
          obtain ⟨p, hp, rfl⟩ := List.mem_map.mp hx
          exact hbin p hp)
    exact ⟨n, hn⟩
  have hT : d.total = pyInt (volSum nx ny nz other) := by
    rw [voldiff_between] at hd
    rcases hm : method_of name with e | m <;> rw [hm] at hd
    · cases hd
    · by_cases ht : pyInt (volSum nx ny nz other) = 0
      · simp [ht] at hd
      · simp [ht] at hd
        rw [← hd]
  rw [hT, hn, pyInt_natCast]
  simp

/-- C2 witness: a 1×1×1 all-ones candidate against an all-zeros reference
with a convention-conforming candidate name; the binary-mask hypothesis
holds, `voldiff_between` succeeds with the explicit record, and its `total`
is the candidate sum. -/
theorem voldiff_between_total_of_candidate_witness :
    (∀ p ∈ allIdx 1 1 1,
        volAt (fun _ _ _ => (1 : ℚ)) p = 0 ∨
          volAt (fun _ _ _ => (1 : ℚ)) p = 1) ∧
      voldiff_between 1 1 1 (fun _ _ _ => (0 : ℚ)) (fun _ _ _ => (1 : ℚ))
          "hello.subdiv.4.mt.trilinear.mnc".data
        = .ok { additions := 1, deletions := 0, total := 1, change := 1,
                count_changes := 1,
                percent_change := ((1 : ℤ) : ℚ) / ((1 : ℤ) : ℚ),
                method := "trilinear".data,
                path := "hello.subdiv.4.mt.trilinear.mnc".data } ∧
      (({ additions := 1, deletions := 0, total := 1, change := 1,
          count_changes := 1,
          percent_change := ((1 : ℤ) : ℚ) / ((1 : ℤ) : ℚ),
          method := "trilinear".data,
          path := "hello.subdiv.4.mt.trilinear.mnc".data } : VolDiff).total : ℚ)
        = volSum 1 1 1 (fun _ _ _ => (1 : ℚ)) := by
  have h1 : ∀ p ∈ allIdx 1 1 1,
      volAt (fun _ _ _ => (1 : ℚ)) p = 0 ∨ volAt (fun _ _ _ => (1 : ℚ)) p = 1 := by
    decide
  have hcnt : count_3d_diff 1 1 1 (fun _ _ _ => (0 : ℚ)) (fun _ _ _ => (1 : ℚ))
      = (1, 0) := by decide
  have hIdx : allIdx 1 1 1 = [(0, 0, 0)] := by decide
  have hsum : volSum 1 1 1 (fun _ _ _ => (1 : ℚ)) = 1 := by
    rw [volSum, hIdx]; simp [volAt]
  have hm : method_of "hello.subdiv.4.mt.trilinear.mnc".data
      = Except.ok "trilinear".data := rfl
  have h2 : voldiff_between 1 1 1 (fun _ _ _ => (0 : ℚ)) (fun _ _ _ => (1 : ℚ))
      "hello.subdiv.4.mt.trilinear.mnc".data
      = .ok { additions := 1, deletions := 0, total := 1, change := 1,
              count_changes := 1,
              percent_change := ((1 : ℤ) : ℚ) / ((1 : ℤ) : ℚ),
              method := "trilinear".data,
              path := "hello.subdiv.4.mt.trilinear.mnc".data } := by
    simp only [voldiff_between, hcnt, hsum, hm]
    norm_num [pyInt]
  exact ⟨h1, h2,
    voldiff_between_total_of_candidate 1 1 1 _ _ _ _ h1 h2⟩

/-- C3: evaluating `voldiff_between` at a candidate volume with zero total
(all samples `0`) does not produce a record with a sentinel
`percent_change`: the embedded computation reaches the
`change / total` division on Python `int`s with `total == 0` and raises
`ZeroDivisionError` (embedded as the error value), i.e. the code crashes
where the claim requires an explicit sentinel in the output. -/
theorem voldiff_between_zero_total_raises :
    voldiff_between 1 1 1 (fun _ _ _ => (1 : ℚ)) (fun _ _ _ => (0 : ℚ))
        "hello.subdiv.4.mt.trilinear.mnc".data
      = .error "ZeroDivisionError: division by zero" := by
  have hIdx : allIdx 1 1 1 = [(0, 0, 0)] := by decide
  have hsum : volSum 1 1 1 (fun _ _ _ => (0 : ℚ)) = 0 := by
    rw [volSum, hIdx]; simp [volAt]
  have hm : method_of "hello.subdiv.4.mt.trilinear.mnc".data
      = Except.ok "trilinear".data := rfl
  simp only [voldiff_between, hsum, hm]
  norm_num [pyInt]

/-- Mean of a list of rationals (`pandas` group `mean`; groups produced by
`groupby` are never empty). -/
def ratMean (l : List ℚ) : ℚ :=
  l.sum / (l.length : ℚ)

/-- Sample variance with one delta degree of freedom, the square of the
`pandas` group `std` (`ddof=1`).  The reported `std` is the (generally
irrational) square root of this value, so the embedding carries the
variance; `none` embeds the `NaN` that `pandas` yields for a one-element
group. -/
def sampleVar (l : List ℚ) : Option ℚ :=
  if l.length < 2 then none
  else some ((l.map (fun x => (x - ratMean l) ^ 2)).sum / ((l.length : ℚ) - 1))

/-- Per-method `percent_change` statistics of the summary report. -/
structure MethodStats where
  mean : ℚ
  var : Option ℚ
deriving DecidableEq

/-- The summary report built by `_summarize` of `subdivide/__main__.py`
(serialized to `summary.json`).  Per-method values are association lists
keyed by method name. -/
structure Summary where
  additions : List (List Char × ℕ)
  deletions : List (List Char × ℕ)
  count_changes : List (List Char × ℕ)
  count_inputs : ℕ
  percent_change : List (List Char × MethodStats)
deriving DecidableEq

/-- Distinct method keys of a record collection, in order of first
occurrence (`pandas` sorts group keys instead; no claim depends on the key
order). -/
def methodKeys (records : List VolDiff) : List (List Char) :=
  (records.map VolDiff.method).dedup

/-- The group of records carrying a given method key. -/
def groupRecords (records : List VolDiff) (m : List Char) : List VolDiff :=
  records.filter (fun r => decide (r.method = m))

/-- Embedding of `_summarize(df)` of `subdivide/__main__.py`, lines 125-139, where `df`
is `pd.DataFrame(diffs)` for the list `diffs` of `VolDiff` records.  For an
empty record list the constructed frame has no columns at all, so
`df.groupby('method')` raises `KeyError` — embedded as the error branch.
Otherwise: per-method sums of `additions`, `deletions`, `count_changes`;
`count_inputs = df.shape[0]`, the number of rows of the frame, i.e. the
number of diff records; and per-method mean/std of `percent_change`. -/
def _summarize (records : List VolDiff) : Except String Summary :=
  if records.isEmpty then .error "KeyError: method"
  else
    let ms := methodKeys records
    .ok { additions := ms.map fun m =>
            (m, ((groupRecords records m).map VolDiff.additions).sum),
          deletions := ms.map fun m =>
            (m, ((groupRecords records m).map VolDiff.deletions).sum),
          count_changes := ms.map fun m =>
            (m, ((groupRecords records m).map VolDiff.count_changes).sum),
          count_inputs := records.length,
          percent_change := ms.map fun m =>
            (m, { mean := ratMean
                    ((groupRecords records m).map VolDiff.percent_change),
                  var := sampleVar
                    ((groupRecords records m).map VolDiff.percent_change) }) }

/-- C4: applied to an empty collection of diff records, `_summarize` does
not return a summary with `count_inputs = 0` and sentinel statistics — it
raises: `pd.DataFrame([])` has no `method` column, so
`df.groupby('method')` throws `KeyError` (embedded as the error value). -/
theorem summarize_empty_raises :
    _summarize [] = .error "KeyError: method" := rfl

/-- C5: for every nonempty record collection, the `count_inputs` field of
the summary equals the number of per-candidate diff records — `df.shape[0]`
— not the number of input files.  A run over one input file with the three
registered methods yields three diff records, hence `count_inputs = 3`,
refuting the claimed value `1`. -/
theorem summarize_count_inputs_counts_records (records : List VolDiff)
    (h : records ≠ []) :
    (_summarize records).map Summary.count_inputs = .ok records.length := by
  rw [_summarize, if_neg (by simpa using h)]
  rfl

/-- The three per-candidate diff records produced for a single input file
(one per registered method: the pipeline builds one `.mt.<method>.mnc`
candidate per entry of `MINCRESAMPLE_OPTIONS`). -/
def exampleDiffRecords : List VolDiff :=
  [{ additions := 1, deletions := 0, total := 10, change := 1,
     count_changes := 1, percent_change := mkRat 1 10,
     method := "trilinear".data, path := "a.subdiv.2.mt.trilinear.mnc".data },
   { additions := 0, deletions := 2, total := 10, change := -2,
     count_changes := 2, percent_change := mkRat (-2) 10,
     method := "tricubic".data, path := "a.subdiv.2.mt.tricubic.mnc".data },
   { additions := 1, deletions := 1, total := 10, change := 0,
     count_changes := 2, percent_change := mkRat 0 10,
     method := "nearest_neighbour".data,
     path := "a.subdiv.2.mt.nearest_neighbour.mnc".data }]

/-- C5 witness: on the three records of a single-input run the summary
reports `count_inputs = 3`, not `1`. -/
theorem summarize_count_inputs_counts_records_witness :
    exampleDiffRecords ≠ [] ∧
      (_summarize exampleDiffRecords).map Summary.count_inputs = .ok 3 :=
  ⟨by decide, summarize_count_inputs_counts_records exampleDiffRecords (by decide)⟩

/-- Search for the highest index at which `pat` occurs in `s`, scanning
candidate start positions from `n` down to `0`; embeds Python
`str.rindex` (which returns the highest occurrence index and raises
`ValueError`, here `none`, when the substring is absent). -/
def rindexAux (pat s : List Char) : ℕ → Option ℕ
  | 0 => if pat.isPrefixOf s then some 0 else none
  | i + 1 =>
    if pat.isPrefixOf (s.drop (i + 1)) then some (i + 1)
    else rindexAux pat s i

/-- Embedding of `s.rindex(pat)` over embedded strings. -/
def rindex (pat s : List Char) : Option ℕ :=
  rindexAux pat s s.length

/-- The pure name derivation of `_find_kroned_output`
(`subdivide/__main__.py`, lines 117-118): `i = other_path.name.rindex('.mt.')`
and the new name is `name[:i] + '.np.mnc'`.  `Path.with_name` keeps the
parent directory, so the embedding works on file names; `none` embeds the
`ValueError` of `rindex` on a name without the `.mt.` marker. -/
def kroned_name (other_name : List Char) : Option (List Char) :=
  match rindex ".mt.".data other_name with
  | none => none
  | some i => some (other_name.take i ++ ".np.mnc".data)

/-- Embedding of `_find_kroned_output(other_path)` of `subdivide/__main__.py`, lines
116-122: derive the sibling reference name and require the file to exist
(`kron_path.is_file()`); the filesystem enters the embedding as the
predicate `file_on_disk`.  A missing sibling raises `RuntimeError`
(embedded as the error value), so a dangling path is never returned. -/
def find_kroned_output (file_on_disk : List Char → Bool)
    (other_name : List Char) : Except String (List Char) :=
  match kroned_name other_name with
  | none => .error "ValueError: substring not found"
  | some kron_name =>
    if file_on_disk kron_name then .ok kron_name
    else .error "RuntimeError: expected kron output to exist"

theorem rindexAux_eq_some (pat s : List Char) (L : ℕ)
    (hpre : pat.isPrefixOf (s.drop L) = true)
    (hmax : ∀ k, L < k → pat.isPrefixOf (s.drop k) = false) :
    ∀ n, L ≤ n → rindexAux pat s n = some L := by
  intro n
  induction n with
  | zero =>
    intro hL
    have hL0 : L = 0 := Nat.le_zero.mp hL
    subst hL0
    rw [rindexAux, if_pos]
    simpa using hpre
  | succ i ih =>
    intro hL
    rcases eq_or_lt_of_le hL with rfl | hlt
    · rw [rindexAux, if_pos hpre]
    · have hk : pat.isPrefixOf (s.drop (i + 1)) = false := hmax (i + 1) hlt
      rw [rindexAux, if_neg (by simp [hk]), ih (Nat.lt_succ_iff.mp hlt)]

theorem rindex_append (stem t : List Char)
    (hpre : ".mt.".data.isPrefixOf t = true)
    (hno : ∀ j, 1 ≤ j → ".mt.".data.isPrefixOf (t.drop j) = false) :
    rindex ".mt.".data (stem ++ t) = some stem.length := by
  apply rindexAux_eq_some
  · rw [List.drop_left]
    exact hpre
  · intro k hk
    obtain ⟨j, rfl⟩ := Nat.exists_eq_add_of_lt hk
    rw [show stem.length + j + 1 = stem.length + (j + 1) from by omega,
      ← List.drop_drop, List.drop_left]
    exact hno (j + 1) (by omega)
  · rw [List.length_append]
    exact Nat.le_add_right _ _

theorem noOcc_of_bounded (pat t : List Char) (hpat : pat ≠ [])
    (h : ∀ j < t.length + 1, 1 ≤ j → pat.isPrefixOf (t.drop j) = false) :
    ∀ j, 1 ≤ j → pat.isPrefixOf (t.drop j) = false := by
  intro j hj
  by_cases hcase : j < t.length + 1
  · exact h j hcase hj
  · rw [List.drop_eq_nil_of_le (by omega)]
    cases pat with
    | nil => exact absurd rfl hpat
    | cons c cs => rfl

/-- C6: for every convention-conforming candidate file name
`<stem>.mt.<method>.mnc` with `<method>` a registered method, the derived
sibling reference name replaces the `mt.<method>` segment by `np`:
it is `<stem>.np.mnc` (same stem, hence same division factor; the directory
is untouched because the source uses `Path.with_name`). -/
theorem kroned_name_convention (stem : List Char) (method : List Char)
    (hm : method ∈ MINCRESAMPLE_OPTIONS) :
    kroned_name (stem ++ ".mt.".data ++ method ++ ".mnc".data)
      = some (stem ++ ".np.mnc".data) := by
  have hassoc : stem ++ ".mt.".data ++ method ++ ".mnc".data
      = stem ++ (".mt.".data ++ method ++ ".mnc".data) := by
    simp [List.append_assoc]
  rw [hassoc]
  fin_cases hm
  · rw [show ".mt.".data ++ "trilinear".data ++ ".mnc".data
        = ".mt.trilinear.mnc".data from rfl,
      kroned_name,
      rindex_append stem ".mt.trilinear.mnc".data (by decide)
        (noOcc_of_bounded _ _ (by decide) (by decide))]
    simp [List.take_left]
  · rw [show ".mt.".data ++ "tricubic".data ++ ".mnc".data
        = ".mt.tricubic.mnc".data from rfl,
      kroned_name,
      rindex_append stem ".mt.tricubic.mnc".data (by decide)
        (noOcc_of_bounded _ _ (by decide) (by decide))]
    simp [List.take_left]
  · rw [show ".mt.".data ++ "nearest_neighbour".data ++ ".mnc".data
        = ".mt.nearest_neighbour.mnc".data from rfl,
      kroned_name,
      rindex_append stem ".mt.nearest_neighbour.mnc".data (by decide)
        (noOcc_of_bounded _ _ (by decide) (by decide))]
    simp [List.take_left]

/-- C6 witness: the spec example `hello.subdiv.4.mt.trilinear.mnc` maps to
`hello.subdiv.4.np.mnc`. -/
theorem kroned_name_convention_witness :
    "trilinear".data ∈ MINCRESAMPLE_OPTIONS ∧
      kroned_name "hello.subdiv.4.mt.trilinear.mnc".data
        = some "hello.subdiv.4.np.mnc".data :=
  ⟨by decide,
    kroned_name_convention "hello.subdiv.4".data "trilinear".data (by decide)⟩

/-- C7: whenever the derived sibling reference name is not on disk,
`_find_kroned_output` fails with the missing-sibling `RuntimeError`; in
particular it never returns the dangling path. -/
theorem find_kroned_output_missing_sibling (file_on_disk : List Char → Bool)
    (name kn : List Char) (hkn : kroned_name name = some kn)
    (hmiss : file_on_disk kn = false) :
    find_kroned_output file_on_disk name
      = .error "RuntimeError: expected kron output to exist" := by
  rw [find_kroned_output, hkn]
  simp [hmiss]

/-- C7 witness: an empty filesystem; the lookup for the spec example
candidate fails with the missing-sibling error. -/
theorem find_kroned_output_missing_sibling_witness :
    kroned_name "hello.subdiv.4.mt.trilinear.mnc".data
        = some "hello.subdiv.4.np.mnc".data ∧
      (fun _ : List Char => false) "hello.subdiv.4.np.mnc".data = false ∧
      find_kroned_output (fun _ => false) "hello.subdiv.4.mt.trilinear.mnc".data
        = .error "RuntimeError: expected kron output to exist" :=
  ⟨by decide, rfl,
    find_kroned_output_missing_sibling (fun _ => false)
      "hello.subdiv.4.mt.trilinear.mnc".data "hello.subdiv.4.np.mnc".data
      (by decide) rfl⟩

/-- Test `math.log2(d).is_integer()` at the integer inputs the divisions check
evaluates it on: for `d ≥ 1` this holds exactly when `d` is a power of two,
decided here by the bit test `d &&& (d − 1) == 0`; float `log2` is exact on
the small integers of this claim.  `main` only consults it when `d ≥ 1`
(Python `or` short-circuits). -/
def log2_is_integer (d : ℤ) : Bool :=
  d.toNat &&& (d.toNat - 1) == 0

/-- The divisions gate at the top of `main` (`subdivide/__main__.py`,
lines 42-46): `if divisions < 1 or not math.log2(divisions).is_integer()`,
print a diagnostic and `sys.exit(1)` — before any job is constructed or
run.  The error value is the process exit status. -/
def main_divisions_gate (d : ℤ) : Except ℕ Unit :=
  if d < 1 || !(log2_is_integer d) then .error 1 else .ok ()

/-- C8: the divisions values 0, 3, −2 and 5 are all rejected by the gate
(exit status 1, before any work), and 1, 2, 4, 8 and 16 are all
accepted. -/
theorem main_divisions_gate_cases :
    main_divisions_gate 0 = .error 1 ∧
      main_divisions_gate 3 = .error 1 ∧
      main_divisions_gate (-2) = .error 1 ∧
      main_divisions_gate 5 = .error 1 ∧
      main_divisions_gate 1 = .ok () ∧
      main_divisions_gate 2 = .ok () ∧
      main_divisions_gate 4 = .ok () ∧
      main_divisions_gate 8 = .ok () ∧
      main_divisions_gate 16 = .ok () :=
  ⟨rfl, rfl, rfl, rfl, rfl, rfl, rfl, rfl, rfl⟩
